import Mathlib

/-!
# Bacon2D image layer: scroll wrap-around, render-node state and tile sampling

A shallow embedding of `src/imagelayerscrollbehavior.cpp` and of the shader and
render-node parts of `src/imagelayer.cpp`.

Conventions of the embedding:
* a finite `qreal` is an exact rational (`ℚ`); rounding of `double` arithmetic is
  not modelled;
* the quotient of two `qreal`s is a `QReal`, which adds the IEEE-754 results of a
  division by zero (infinities and NaN) to the finite values;
* `int` values are mathematical integers (`ℤ`); texture sizes are natural numbers;
* mutation is explicit state passing: every method takes the object and returns
  the updated object.
-/

namespace Bacon2D

/-! ## Scroll behaviour (`imagelayerscrollbehavior.cpp`) -/

/-- Layer type of `Layer`: `Layer::Normal` or `Layer::Mirrored`. -/
inductive LayerType where
  | Normal
  | Mirrored
  deriving DecidableEq, Repr

/-- The fields of `ImageLayer` that `ImageLayerScrollBehavior::update` reads and
writes: the layer type, the cached natural image size and the two offsets. -/
structure ImageLayer where
  layerType : LayerType
  m_imageWidth : ℕ
  m_imageHeight : ℕ
  m_horizontalOffset : ℚ
  m_verticalOffset : ℚ
  deriving DecidableEq

/-- Getter `ImageLayer::imageWidth`, a `qreal`. -/
def ImageLayer.imageWidth (l : ImageLayer) : ℚ := (l.m_imageWidth : ℚ)

/-- Getter `ImageLayer::imageHeight`, a `qreal`. -/
def ImageLayer.imageHeight (l : ImageLayer) : ℚ := (l.m_imageHeight : ℚ)

/-- Getter `ImageLayer::horizontalOffset`. -/
def ImageLayer.horizontalOffset (l : ImageLayer) : ℚ := l.m_horizontalOffset

/-- Getter `ImageLayer::verticalOffset`. -/
def ImageLayer.verticalOffset (l : ImageLayer) : ℚ := l.m_verticalOffset

/-- Setter `ImageLayer::setHorizontalOffset`. -/
def ImageLayer.setHorizontalOffset (l : ImageLayer) (offset : ℚ) : ImageLayer :=
  { l with m_horizontalOffset := offset }

/-- Setter `ImageLayer::setVerticalOffset`. -/
def ImageLayer.setVerticalOffset (l : ImageLayer) (offset : ℚ) : ImageLayer :=
  { l with m_verticalOffset := offset }

/-- Qt's `qCeil`: the least integer not below `v`, as an `int`. -/
def qCeil (v : ℚ) : ℤ := ⌈v⌉

/-- The scroll behaviour object: its target (`none` when the `dynamic_cast` to
`ImageLayer` fails) and the two per-axis steps. -/
structure ImageLayerScrollBehavior where
  m_target : Option ImageLayer
  m_horizontalStep : ℚ
  m_verticalStep : ℚ
  deriving DecidableEq

/-- One tick: `ImageLayerScrollBehavior::update`. The argument `delta` is unused,
as in the source. -/
def ImageLayerScrollBehavior.update (self : ImageLayerScrollBehavior) (_delta : ℤ) :
    ImageLayerScrollBehavior :=
  match self.m_target with
  | none => self
  | some target =>
    let modifier : ℤ := if target.layerType = LayerType.Mirrored then 2 else 1
    let horizontalOffset : ℚ := target.horizontalOffset + self.m_horizontalStep
    let verticalOffset : ℚ := target.verticalOffset + self.m_verticalStep
    let horizontalOffset : ℚ :=
      if horizontalOffset ≤ -target.imageWidth * (modifier : ℚ) then 0
      else if horizontalOffset ≥ 0 then -target.imageWidth * (modifier : ℚ)
      else horizontalOffset
    let verticalOffset : ℚ :=
      if verticalOffset ≤ -target.imageHeight * (modifier : ℚ) then 0
      else if verticalOffset ≥ 0 then -target.imageHeight * (modifier : ℚ)
      else verticalOffset
    let target := target.setHorizontalOffset ((qCeil horizontalOffset : ℤ) : ℚ)
    let target := target.setVerticalOffset ((qCeil verticalOffset : ℤ) : ℚ)
    { self with m_target := some target }

/-- The behaviour after `n` ticks. -/
def ImageLayerScrollBehavior.ticks (self : ImageLayerScrollBehavior) : ℕ → ImageLayerScrollBehavior
  | 0 => self
  | n + 1 => (self.ticks n).update 0

/-- The wrap modifier of a layer type: 2 if Mirrored, 1 otherwise. -/
def modifierOf (t : LayerType) : ℤ := if t = LayerType.Mirrored then 2 else 1

/-- A behaviour attached to an image layer. -/
def attach (t : LayerType) (w h : ℕ) (x y sx sy : ℚ) : ImageLayerScrollBehavior :=
  { m_target := some { layerType := t, m_imageWidth := w, m_imageHeight := h,
                       m_horizontalOffset := x, m_verticalOffset := y },
    m_horizontalStep := sx, m_verticalStep := sy }

/-- Horizontal offset of the target, when there is one. -/
def ImageLayerScrollBehavior.hOffset (b : ImageLayerScrollBehavior) : Option ℚ :=
  b.m_target.map ImageLayer.horizontalOffset

/-- Vertical offset of the target, when there is one. -/
def ImageLayerScrollBehavior.vOffset (b : ImageLayerScrollBehavior) : Option ℚ :=
  b.m_target.map ImageLayer.verticalOffset

/-- The value stored on one axis by a tick, from the current offset `x`, the step
`s`, the natural size `w` and the modifier `m`: the wrap test followed by `qCeil`.
A proof-side summary of the per-axis code of `update`, see `update_attach`. -/
def advanceAxis (x s : ℚ) (w : ℕ) (m : ℤ) : ℚ :=
  ((qCeil (if x + s ≤ -(w : ℚ) * (m : ℚ) then 0
           else if x + s ≥ 0 then -(w : ℚ) * (m : ℚ) else x + s) : ℤ) : ℚ)

/-! ## Shader and render node (`imagelayer.cpp`) -/

/-- A `qreal` that may be non-finite: the finite values and the IEEE-754 special
values that a division by zero produces. -/
inductive QReal where
  | fin (q : ℚ)
  | posInf
  | negInf
  | nan
  deriving DecidableEq

/-- Unary minus on `qreal`. -/
def QReal.neg : QReal → QReal
  | QReal.fin q => QReal.fin (-q)
  | QReal.posInf => QReal.negInf
  | QReal.negInf => QReal.posInf
  | QReal.nan => QReal.nan

/-- The quotient `p / w` of two finite `qreal`s, the divisor being non-negative:
finite when `w` is not zero, otherwise an infinity with the sign of `p`, or NaN for
`0 / 0`. -/
def QReal.div (p w : ℚ) : QReal :=
  if w ≠ 0 then QReal.fin (p / w)
  else if 0 < p then QReal.posInf
  else if p < 0 then QReal.negInf
  else QReal.nan

/-- The C++ operator `!=` on `qreal`: NaN is unequal to every value, itself
included; the other values are unequal when they are different. -/
def QReal.ne (a b : QReal) : Bool :=
  match a, b with
  | QReal.nan, _ => true
  | _, QReal.nan => true
  | a, b => decide (a ≠ b)

/-- The material state `ImageLayerState`: a texture handle and the three uniform
values. -/
structure ImageLayerState where
  texture : ℕ
  xPos : QReal
  yPos : QReal
  mirrored : QReal
  deriving DecidableEq

/-- The render node `ImageLayerNode`: the natural size of its texture, the state of
its material and the two dirty bits set by `markDirty`. -/
structure ImageLayerNode where
  m_width : ℕ
  m_height : ℕ
  state : ImageLayerState
  dirtyGeometry : Bool
  dirtyMaterial : Bool
  deriving DecidableEq

/-- Method `ImageLayerNode::updateXPos`. -/
def ImageLayerNode.updateXPos (n : ImageLayerNode) (pos : ℚ) : ImageLayerNode :=
  { n with state := { n.state with xPos := QReal.neg (QReal.div pos (n.m_width : ℚ)) },
           dirtyMaterial := true }

/-- Method `ImageLayerNode::updateYPos`. -/
def ImageLayerNode.updateYPos (n : ImageLayerNode) (pos : ℚ) : ImageLayerNode :=
  { n with state := { n.state with yPos := QReal.neg (QReal.div pos (n.m_height : ℚ)) },
           dirtyMaterial := true }

/-- Method `ImageLayerNode::updateMirrored`: shaders have no boolean values. -/
def ImageLayerNode.updateMirrored (n : ImageLayerNode) (mirrored : Bool) : ImageLayerNode :=
  { n with state := { n.state with mirrored := if mirrored then QReal.fin 1 else QReal.fin 0 },
           dirtyMaterial := true }

/-- The constructor of `ImageLayerNode`, from the handle and the size of the texture
created from the image file: it records the size, then calls `updateXPos(0)`,
`updateYPos(0)` and `updateMirrored(mirroredType)`, which overwrite the three uniforms
of the fresh material state. -/
def ImageLayerNode.create (texture width height : ℕ) (mirroredType : Bool) : ImageLayerNode :=
  let n : ImageLayerNode :=
    { m_width := width, m_height := height,
      state := { texture := texture, xPos := QReal.fin 0, yPos := QReal.fin 0,
                 mirrored := QReal.fin 0 },
      dirtyGeometry := false, dirtyMaterial := false }
  let n := n.updateXPos 0
  let n := n.updateYPos 0
  n.updateMirrored mirroredType

/-- GLSL `mod(x, y)`, defined as `x - y * floor(x / y)`. -/
def glslMod (x y : ℚ) : ℚ := x - y * ((⌊x / y⌋ : ℤ) : ℚ)

/-- Conversion of a float to `int`: truncation toward zero. -/
def toInt (x : ℚ) : ℤ := if 0 ≤ x then ⌊x⌋ else ⌈x⌉

/-- The coordinate at which `ImageLayerShader::fragmentShader` samples the texture,
from the uniforms `mirrored`, `xPos`, `yPos` and the varying `texCoord`. -/
def fragmentShader (mirrored xPos yPos : ℚ) (texCoord : ℚ × ℚ) : ℚ × ℚ :=
  let newX : ℚ := texCoord.1 + xPos
  let newY : ℚ := texCoord.2 + yPos
  if mirrored > 1 / 2 then
    let coord : ℤ := toInt (glslMod newX 2)
    let newX : ℚ := if coord < 1 then 1 - texCoord.1 - xPos else newX
    let coord : ℤ := toInt (glslMod newY 2)
    let newY : ℚ := if coord < 1 then 1 - texCoord.2 - yPos else newY
    (newX, newY)
  else
    (newX, newY)

/-- The TileSampler of the specification (section 4.1), written from its words:
without mirroring the coordinate is `(u + dx, v + dy)`; with mirroring each axis is
reflected to `1 - u - dx` when the integer tile index `floor (u + dx)` is even. -/
def tileSamplerSpec (mirrored : Bool) (u v dx dy : ℚ) : ℚ × ℚ :=
  if mirrored then
    (if ⌊u + dx⌋ % 2 = 0 then 1 - u - dx else u + dx,
     if ⌊v + dy⌋ % 2 = 0 then 1 - v - dy else v + dy)
  else
    (u + dx, v + dy)

/-- The value of the uniform `mirrored` published for a boolean flag, as stored by
`updateMirrored`. -/
def mirroredUniform (b : Bool) : ℚ := if b then 1 else 0

/-! ## Lemmas on the scroll behaviour -/

/-! ### Lemmas on one tick -/

theorem update_attach (t : LayerType) (w h : ℕ) (x y sx sy : ℚ) (d : ℤ) :
    (attach t w h x y sx sy).update d =
      attach t w h (advanceAxis x sx w (modifierOf t)) (advanceAxis y sy h (modifierOf t)) sx sy := by
  rfl

theorem modifierOf_Normal : modifierOf LayerType.Normal = 1 := rfl

theorem modifierOf_Mirrored : modifierOf LayerType.Mirrored = 2 := rfl

theorem modifierOf_pos (t : LayerType) : 0 < modifierOf t := by
  cases t <;> decide

theorem neg_size_cast (w : ℕ) (m : ℤ) : -(w : ℚ) * (m : ℚ) = ((-(w : ℤ) * m : ℤ) : ℚ) := by
  push_cast; ring

theorem advanceAxis_far (x s : ℚ) (w : ℕ) (m : ℤ) (h : x + s ≤ -(w : ℚ) * (m : ℚ)) :
    advanceAxis x s w m = 0 := by
  unfold advanceAxis qCeil
  rw [if_pos h, Int.ceil_zero, Int.cast_zero]

theorem advanceAxis_origin (x s : ℚ) (w : ℕ) (m : ℤ) (h1 : ¬ x + s ≤ -(w : ℚ) * (m : ℚ))
    (h2 : 0 ≤ x + s) : advanceAxis x s w m = -(w : ℚ) * (m : ℚ) := by
  unfold advanceAxis qCeil
  rw [if_neg h1, if_pos h2, neg_size_cast, Int.ceil_intCast]

theorem advanceAxis_inner (x s : ℚ) (w : ℕ) (m : ℤ) (h1 : ¬ x + s ≤ -(w : ℚ) * (m : ℚ))
    (h2 : ¬ 0 ≤ x + s) : advanceAxis x s w m = ((⌈x + s⌉ : ℤ) : ℚ) := by
  unfold advanceAxis qCeil
  rw [if_neg h1, if_neg h2]

theorem advanceAxis_le_zero (x s : ℚ) (w : ℕ) (m : ℤ) (hm : 0 ≤ m) :
    advanceAxis x s w m ≤ 0 := by
  have hwm : (0 : ℚ) ≤ (w : ℚ) * (m : ℚ) := by positivity
  by_cases h1 : x + s ≤ -(w : ℚ) * (m : ℚ)
  · rw [advanceAxis_far x s w m h1]
  · by_cases h2 : 0 ≤ x + s
    · rw [advanceAxis_origin x s w m h1 h2]; linarith
    · rw [advanceAxis_inner x s w m h1 h2]
      have : ⌈x + s⌉ ≤ 0 := Int.ceil_le.mpr (by push_cast; linarith)
      exact_mod_cast this

theorem advanceAxis_ge (x s : ℚ) (w : ℕ) (m : ℤ) (hm : 0 ≤ m) :
    -((w : ℚ) * (m : ℚ)) ≤ advanceAxis x s w m := by
  have hwm : (0 : ℚ) ≤ (w : ℚ) * (m : ℚ) := by positivity
  by_cases h1 : x + s ≤ -(w : ℚ) * (m : ℚ)
  · rw [advanceAxis_far x s w m h1]; linarith
  · by_cases h2 : 0 ≤ x + s
    · rw [advanceAxis_origin x s w m h1 h2]; linarith
    · rw [advanceAxis_inner x s w m h1 h2]
      have := Int.le_ceil (x + s)
      linarith

theorem advanceAxis_gt (x s : ℚ) (w : ℕ) (m : ℤ) (hw : 0 < w) (hm : 0 < m) (hneg : x + s < 0) :
    -((w : ℚ) * (m : ℚ)) < advanceAxis x s w m := by
  have hwm : (0 : ℚ) < (w : ℚ) * (m : ℚ) := by positivity
  by_cases h1 : x + s ≤ -(w : ℚ) * (m : ℚ)
  · rw [advanceAxis_far x s w m h1]; linarith
  · rw [advanceAxis_inner x s w m h1 (not_le.mpr hneg)]
    have := Int.le_ceil (x + s)
    linarith

/-- An integer offset strictly inside the range is stored again when the sum
`x + s` stays in `(x - 1, x]`. -/
theorem advanceAxis_fixed (x : ℤ) (s : ℚ) (w : ℕ) (m : ℤ) (hlo : -((w : ℤ) * m) < x)
    (hs1 : -1 < s) (hs0 : s ≤ 0) (hneg : (x : ℚ) + s < 0) :
    advanceAxis (x : ℚ) s w m = (x : ℚ) := by
  have h1 : ¬ (x : ℚ) + s ≤ -(w : ℚ) * (m : ℚ) := by
    rw [neg_size_cast]
    intro hle
    have hx : -((w : ℤ) * m) + 1 ≤ x := hlo
    have hx' : ((-((w : ℤ) * m) + 1 : ℤ) : ℚ) ≤ (x : ℚ) := by exact_mod_cast hx
    push_cast at hx' hle
    linarith
  rw [advanceAxis_inner _ s w m h1 (not_le.mpr hneg)]
  have : ⌈(x : ℚ) + s⌉ = x := by
    rw [Int.ceil_eq_iff]
    constructor <;> linarith
  rw [this]

/-! ### Lemmas on repeated ticks -/

theorem ticks_succ (b : ImageLayerScrollBehavior) (n : ℕ) :
    b.ticks (n + 1) = (b.ticks n).update 0 := rfl

theorem ticks_attach (t : LayerType) (w h : ℕ) (x y sx sy : ℚ) (n : ℕ) :
    ∃ x' y', (attach t w h x y sx sy).ticks n = attach t w h x' y' sx sy := by
  induction n with
  | zero => exact ⟨x, y, rfl⟩
  | succ n ih =>
    obtain ⟨x', y', e⟩ := ih
    exact ⟨_, _, by rw [ticks_succ, e, update_attach]⟩

theorem ticks_add (b : ImageLayerScrollBehavior) (m n : ℕ) :
    (b.ticks m).ticks n = b.ticks (m + n) := by
  induction n with
  | zero => rfl
  | succ n ih => rw [ticks_succ, ih, ← Nat.add_assoc, ticks_succ]

theorem ticks_one (b : ImageLayerScrollBehavior) : b.ticks 1 = b.update 0 := rfl

theorem hOffset_attach (t : LayerType) (w h : ℕ) (x y sx sy : ℚ) :
    (attach t w h x y sx sy).hOffset = some x := rfl

theorem vOffset_attach (t : LayerType) (w h : ℕ) (x y sx sy : ℚ) :
    (attach t w h x y sx sy).vOffset = some y := rfl

/-- Integer offset and step whose sum is strictly inside the range: the sum is stored. -/
theorem advanceAxis_int (x s : ℤ) (w : ℕ) (m : ℤ) (hlo : -((w : ℤ) * m) < x + s)
    (hhi : x + s < 0) : advanceAxis (x : ℚ) (s : ℚ) w m = ((x + s : ℤ) : ℚ) := by
  have e : (x : ℚ) + (s : ℚ) = ((x + s : ℤ) : ℚ) := by push_cast; ring
  have h1 : ¬ (x : ℚ) + (s : ℚ) ≤ -(w : ℚ) * (m : ℚ) := by
    rw [neg_size_cast, e, Int.cast_le, neg_mul]; omega
  have h2 : ¬ 0 ≤ (x : ℚ) + (s : ℚ) := by
    rw [e]
    have : ¬ (0 : ℤ) ≤ x + s := by omega
    exact_mod_cast this
  rw [advanceAxis_inner _ _ w m h1 h2, e, Int.ceil_intCast]

/-- While the horizontal offset stays strictly inside the range, integer offsets
advance linearly. -/
theorem ticks_linear_h (t : LayerType) (w h : ℕ) (x s : ℤ) (y sy : ℚ) (k : ℕ)
    (hk : ∀ j : ℕ, 1 ≤ j → j ≤ k →
      -((w : ℤ) * modifierOf t) < x + j * s ∧ x + j * s < 0) :
    ∃ y', (attach t w h (x : ℚ) y (s : ℚ) sy).ticks k
        = attach t w h ((x + k * s : ℤ) : ℚ) y' (s : ℚ) sy := by
  induction k with
  | zero => exact ⟨y, by simp [ImageLayerScrollBehavior.ticks]⟩
  | succ k ih =>
    obtain ⟨y', e⟩ := ih (fun j h1 h2 => hk j h1 (Nat.le_succ_of_le h2))
    obtain ⟨h1, h2⟩ := hk (k + 1) (Nat.succ_le_succ (Nat.zero_le k)) (Nat.le_refl _)
    have e1 : x + ((k + 1 : ℕ) : ℤ) * s = (x + (k : ℤ) * s) + s := by push_cast; ring
    have e2 := advanceAxis_int (x + (k : ℤ) * s) s w (modifierOf t) (by rw [← e1]; exact h1)
      (by rw [← e1]; exact h2)
    rw [← e1] at e2
    exact ⟨_, by rw [ticks_succ, e, update_attach, e2]⟩

/-- A horizontal offset that one tick stores again is kept by any number of ticks. -/
theorem ticks_fixed_h (t : LayerType) (w h : ℕ) (x y sx sy : ℚ)
    (hx : advanceAxis x sx w (modifierOf t) = x) (n : ℕ) :
    ((attach t w h x y sx sy).ticks n).hOffset = some x := by
  have key : ∃ y', (attach t w h x y sx sy).ticks n = attach t w h x y' sx sy := by
    induction n with
    | zero => exact ⟨y, rfl⟩
    | succ n ih =>
      obtain ⟨y', e⟩ := ih
      exact ⟨_, by rw [ticks_succ, e, update_attach, hx]⟩
  obtain ⟨y', e⟩ := key
  rw [e, hOffset_attach]

/-- A vertical offset that one tick stores again is kept by any number of ticks. -/
theorem ticks_fixed_v (t : LayerType) (w h : ℕ) (x y sx sy : ℚ)
    (hy : advanceAxis y sy h (modifierOf t) = y) (n : ℕ) :
    ((attach t w h x y sx sy).ticks n).vOffset = some y := by
  have key : ∃ x', (attach t w h x y sx sy).ticks n = attach t w h x' y sx sy := by
    induction n with
    | zero => exact ⟨x, rfl⟩
    | succ n ih =>
      obtain ⟨x', e⟩ := ih
      exact ⟨_, by rw [ticks_succ, e, update_attach, hy]⟩
  obtain ⟨x', e⟩ := key
  rw [e, vOffset_attach]

/-! ## Lemmas on the shader and the render node -/

theorem QReal.ne_of_eq (a b : QReal) (h : a = b) (hn : b ≠ QReal.nan) :
    QReal.ne a b = false := by
  subst h
  cases a <;> simp [QReal.ne] at hn ⊢

theorem QReal.div_of_ne_zero (p w : ℚ) (h : w ≠ 0) : QReal.div p w = QReal.fin (p / w) := by
  simp [QReal.div, h]

theorem QReal.div_zero_not_fin (p q : ℚ) : QReal.neg (QReal.div p 0) ≠ QReal.fin q := by
  unfold QReal.div
  rw [if_neg (by simp)]
  split_ifs <;> simp [QReal.neg]

/-- The value `mod(x, 2.)` converted to `int` is `floor x - 2 * floor (x / 2)`, which
is 0 or 1. -/
theorem toInt_glslMod_two (x : ℚ) :
    toInt (glslMod x 2) = ⌊x⌋ - 2 * ⌊x / 2⌋ ∧ 0 ≤ ⌊x⌋ - 2 * ⌊x / 2⌋ ∧ ⌊x⌋ - 2 * ⌊x / 2⌋ < 2 := by
  have h1 : ((⌊x / 2⌋ : ℤ) : ℚ) ≤ x / 2 := Int.floor_le _
  have h2 : x / 2 < ((⌊x / 2⌋ : ℤ) : ℚ) + 1 := Int.lt_floor_add_one _
  have e : glslMod x 2 = x - (((2 * ⌊x / 2⌋ : ℤ)) : ℚ) := by
    unfold glslMod; push_cast; ring
  have hlo : (2 * ⌊x / 2⌋ : ℤ) ≤ ⌊x⌋ := Int.le_floor.mpr (by push_cast; linarith)
  have hhi : ⌊x⌋ < 2 * ⌊x / 2⌋ + 2 := Int.floor_lt.mpr (by push_cast; linarith)
  have h0 : (0 : ℚ) ≤ glslMod x 2 := by rw [e]; push_cast; linarith
  refine ⟨?_, by omega, by omega⟩
  unfold toInt
  rw [if_pos h0, e, Int.floor_sub_int]

/-- The shader's test `coord < 1` holds exactly when `floor x` is even. -/
theorem coord_lt_one_iff (x : ℚ) : toInt (glslMod x 2) < 1 ↔ ⌊x⌋ % 2 = 0 := by
  obtain ⟨e, h0, h2⟩ := toInt_glslMod_two x
  rw [e]
  omega

theorem fragmentShader_mirrored (m xPos yPos u v : ℚ) (hm : m > 1 / 2) :
    fragmentShader m xPos yPos (u, v) =
      (if ⌊u + xPos⌋ % 2 = 0 then 1 - u - xPos else u + xPos,
       if ⌊v + yPos⌋ % 2 = 0 then 1 - v - yPos else v + yPos) := by
  simp only [fragmentShader, if_pos hm, coord_lt_one_iff]

theorem fragmentShader_plain (m xPos yPos u v : ℚ) (hm : ¬ m > 1 / 2) :
    fragmentShader m xPos yPos (u, v) = (u + xPos, v + yPos) := by
  simp only [fragmentShader, if_neg hm]

/-- C1: for every current offset, step, natural size and layer type, the offsets
stored by one tick lie between `-(size * modifier)` and `0` on both axes, and the
same holds after any positive number of ticks. -/
theorem update_offsets_in_range (t : LayerType) (w h : ℕ) (x y sx sy : ℚ) :
    (∀ d : ℤ, ∃ x' y', (attach t w h x y sx sy).update d = attach t w h x' y' sx sy ∧
        -((w : ℚ) * (modifierOf t : ℚ)) ≤ x' ∧ x' ≤ 0 ∧
        -((h : ℚ) * (modifierOf t : ℚ)) ≤ y' ∧ y' ≤ 0) ∧
    (∀ n : ℕ, ∃ x' y', (attach t w h x y sx sy).ticks (n + 1) = attach t w h x' y' sx sy ∧
        -((w : ℚ) * (modifierOf t : ℚ)) ≤ x' ∧ x' ≤ 0 ∧
        -((h : ℚ) * (modifierOf t : ℚ)) ≤ y' ∧ y' ≤ 0) := by
  have hm : 0 ≤ modifierOf t := le_of_lt (modifierOf_pos t)
  constructor
  · intro d
    exact ⟨_, _, update_attach t w h x y sx sy d, advanceAxis_ge _ _ _ _ hm,
      advanceAxis_le_zero _ _ _ _ hm, advanceAxis_ge _ _ _ _ hm, advanceAxis_le_zero _ _ _ _ hm⟩
  · intro n
    obtain ⟨x1, y1, e⟩ := ticks_attach t w h x y sx sy n
    refine ⟨_, _, ?_, advanceAxis_ge x1 sx w _ hm, advanceAxis_le_zero x1 sx w _ hm,
      advanceAxis_ge y1 sy h _ hm, advanceAxis_le_zero y1 sy h _ hm⟩
    rw [ticks_succ, e, update_attach]

/-- C2 (as stated, refuted): from offset 0 with step 5 on a Normal layer of width
100 the origin branch stores the far wrap point -100 itself, which is not strictly
greater than `-w * modifier`. -/
theorem update_half_open_range_counterexample :
    (5 : ℚ) ≠ 0 ∧ 0 < (100 : ℕ) ∧
    ((attach LayerType.Normal 100 100 0 0 5 0).update 0).hOffset = some (-100) ∧
    ¬ (-(((100 : ℕ) : ℚ) * (modifierOf LayerType.Normal : ℚ)) < (-100 : ℚ)) := by
  refine ⟨by norm_num, by norm_num, ?_, by norm_num [modifierOf_Normal]⟩
  rw [update_attach, hOffset_attach,
    advanceAxis_origin _ _ _ _ (by norm_num [modifierOf_Normal]) (by norm_num)]
  norm_num [modifierOf_Normal]

/-- C2 (amended): with a non-zero step and a positive natural size the offset stored
on an axis lies in the closed interval `[-(size * modifier), 0]`; it is strictly
above the far wrap point when offset plus step is negative, and it is the far wrap
point itself when offset plus step is non-negative. -/
theorem update_closed_range (t : LayerType) (w h : ℕ) (x y sx sy : ℚ) (d : ℤ) :
    (sx ≠ 0 → 0 < w →
      ∃ x', ((attach t w h x y sx sy).update d).hOffset = some x' ∧
        -((w : ℚ) * (modifierOf t : ℚ)) ≤ x' ∧ x' ≤ 0 ∧
        (x + sx < 0 → -((w : ℚ) * (modifierOf t : ℚ)) < x') ∧
        (0 ≤ x + sx → x' = -((w : ℚ) * (modifierOf t : ℚ)))) ∧
    (sy ≠ 0 → 0 < h →
      ∃ y', ((attach t w h x y sx sy).update d).vOffset = some y' ∧
        -((h : ℚ) * (modifierOf t : ℚ)) ≤ y' ∧ y' ≤ 0 ∧
        (y + sy < 0 → -((h : ℚ) * (modifierOf t : ℚ)) < y') ∧
        (0 ≤ y + sy → y' = -((h : ℚ) * (modifierOf t : ℚ)))) := by
  have hm := modifierOf_pos t
  have key : ∀ (a s : ℚ) (n : ℕ), 0 < n →
      -((n : ℚ) * (modifierOf t : ℚ)) ≤ advanceAxis a s n (modifierOf t) ∧
      advanceAxis a s n (modifierOf t) ≤ 0 ∧
      (a + s < 0 → -((n : ℚ) * (modifierOf t : ℚ)) < advanceAxis a s n (modifierOf t)) ∧
      (0 ≤ a + s → advanceAxis a s n (modifierOf t) = -((n : ℚ) * (modifierOf t : ℚ))) := by
    intro a s n hn
    refine ⟨advanceAxis_ge _ _ _ _ (le_of_lt hm), advanceAxis_le_zero _ _ _ _ (le_of_lt hm),
      advanceAxis_gt _ _ _ _ hn hm, ?_⟩
    intro h0
    have hpos : (0 : ℚ) < (n : ℚ) * (modifierOf t : ℚ) := by positivity
    rw [advanceAxis_origin a s n _ (by intro hle; linarith) h0]
    ring
  constructor
  · intro _ hw
    exact ⟨_, by rw [update_attach, hOffset_attach], key x sx w hw⟩
  · intro _ hh
    exact ⟨_, by rw [update_attach, vOffset_attach], key y sy h hh⟩

/-- Witness for C2 (amended): offset -90, step -5, width 100, Normal layer. -/
theorem update_closed_range_witness :
    ∃ x', ((attach LayerType.Normal 100 50 (-90) 0 (-5) 0).update 0).hOffset = some x' ∧
      -(((100 : ℕ) : ℚ) * (modifierOf LayerType.Normal : ℚ)) ≤ x' ∧ x' ≤ 0 ∧
      ((-90 : ℚ) + (-5) < 0 → -(((100 : ℕ) : ℚ) * (modifierOf LayerType.Normal : ℚ)) < x') ∧
      (0 ≤ (-90 : ℚ) + (-5) → x' = -(((100 : ℕ) : ℚ) * (modifierOf LayerType.Normal : ℚ))) :=
  (update_closed_range LayerType.Normal 100 50 (-90) 0 (-5) 0 0).1 (by norm_num) (by decide)

/-- C3 (as stated, refuted): with step (5, 0) the first tick already wraps from 0 to
-100, and the offset after 19 ticks is -10, not -95. -/
theorem scenario_step_five_counterexample :
    ((attach LayerType.Normal 100 100 0 0 5 0).ticks 19).hOffset = some (-10) ∧
    (-10 : ℚ) ≠ -95 := by
  refine ⟨?_, by norm_num⟩
  have h1 : ∃ y1, (attach LayerType.Normal 100 100 0 0 5 0).ticks 1
      = attach LayerType.Normal 100 100 (((-100 : ℤ) : ℚ)) y1 (((5 : ℤ) : ℚ)) 0 := by
    refine ⟨advanceAxis 0 0 100 (modifierOf LayerType.Normal), ?_⟩
    rw [ticks_one, update_attach,
      advanceAxis_origin 0 5 _ _ (by norm_num [modifierOf_Normal]) (by norm_num)]
    norm_num [modifierOf_Normal]
  obtain ⟨y1, e1⟩ := h1
  obtain ⟨y', e⟩ := ticks_linear_h LayerType.Normal 100 100 (-100) 5 y1 0 18
    (by intro j h1 h2; simp only [modifierOf_Normal]; constructor <;> norm_num <;> omega)
  rw [show (19 : ℕ) = 1 + 18 from rfl, ← ticks_add, e1, e, hOffset_attach]
  norm_num

/-- C3 (amended): with natural width 100, layer type Normal and step (-5, 0), starting
from horizontal offset 0, the horizontal offset is -95 after 19 ticks and 0 after the
20th tick, whatever the natural height and the vertical offset are. -/
theorem scenario_step_minus_five (h : ℕ) (y : ℚ) :
    ((attach LayerType.Normal 100 h 0 y (-5) 0).ticks 19).hOffset = some (-95) ∧
    ((attach LayerType.Normal 100 h 0 y (-5) 0).ticks 20).hOffset = some 0 := by
  obtain ⟨y', e⟩ := ticks_linear_h LayerType.Normal 100 h 0 (-5) y 0 19
    (by intro j h1 h2; simp only [modifierOf_Normal]; constructor <;> norm_num <;> omega)
  have e' : (attach LayerType.Normal 100 h 0 y (-5) 0).ticks 19
      = attach LayerType.Normal 100 h (-95) y' (-5) 0 := by
    have := e
    norm_num at this
    exact this
  constructor
  · rw [e', hOffset_attach]
  · rw [ticks_succ, e', update_attach, hOffset_attach,
      advanceAxis_far _ _ _ _ (by norm_num [modifierOf_Normal])]

/-- C4 (as stated, refuted): with step 0 and width 100 on a Normal layer, the offset 0
(which satisfies `-(w * modifier) ≤ x ≤ 0`) is not kept: the origin branch stores
-100, and from -100 the far-end branch stores 0 again. -/
theorem zero_step_pins_counterexample :
    -(((100 : ℕ) : ℤ) * modifierOf LayerType.Normal) ≤ (0 : ℤ) ∧ (0 : ℤ) ≤ 0 ∧
    ((attach LayerType.Normal 100 100 ((0 : ℤ) : ℚ) 0 0 0).update 0).hOffset = some (-100) ∧
    (-100 : ℚ) ≠ ((0 : ℤ) : ℚ) ∧
    ((attach LayerType.Normal 100 100 (-100) 0 0 0).update 0).hOffset = some 0 := by
  refine ⟨by decide, by decide, ?_, by norm_num, ?_⟩
  · rw [update_attach, hOffset_attach,
      advanceAxis_origin _ _ _ _ (by norm_num [modifierOf_Normal]) (by norm_num)]
    norm_num [modifierOf_Normal]
  · rw [update_attach, hOffset_attach,
      advanceAxis_far _ _ _ _ (by norm_num [modifierOf_Normal])]

/-- C4 (amended): with step 0 on an axis, every integer offset strictly inside the
range, `-(size * modifier) < a < 0`, is stored again on that axis by every tick, so it
is the offset after any number of ticks; `o` and `s` are the offset and the step of
the other axis. -/
theorem zero_step_pins_interior (t : LayerType) (w h : ℕ) (a : ℤ) (o s : ℚ) :
    (-((w : ℤ) * modifierOf t) < a → a < 0 →
      ∀ n : ℕ, ((attach t w h (a : ℚ) o 0 s).ticks n).hOffset = some (a : ℚ)) ∧
    (-((h : ℤ) * modifierOf t) < a → a < 0 →
      ∀ n : ℕ, ((attach t w h o (a : ℚ) s 0).ticks n).vOffset = some (a : ℚ)) := by
  have key : ∀ k : ℕ, -((k : ℤ) * modifierOf t) < a → a < 0 →
      advanceAxis (a : ℚ) 0 k (modifierOf t) = (a : ℚ) := by
    intro k hlo hhi
    have hq : (a : ℚ) < 0 := by exact_mod_cast hhi
    exact advanceAxis_fixed a 0 k _ hlo (by norm_num) (le_refl _) (by linarith)
  constructor
  · intro hlo hhi n
    exact ticks_fixed_h t w h _ o 0 s (key w hlo hhi) n
  · intro hlo hhi n
    exact ticks_fixed_v t w h o _ s 0 (key h hlo hhi) n

/-- Witness for C4 (amended): offset -40 on a Mirrored layer of width 100, 7 ticks. -/
theorem zero_step_pins_interior_witness :
    ((attach LayerType.Mirrored 100 50 ((-40 : ℤ) : ℚ) 0 0 3).ticks 7).hOffset
      = some ((-40 : ℤ) : ℚ) :=
  (zero_step_pins_interior LayerType.Mirrored 100 50 (-40) 0 3).1 (by decide) (by decide) 7

/-- C6 (as stated, refuted): on a node of natural width 100, after `updateXPos 50` and
a cleared material-dirty flag, a second `updateXPos 50` sets the flag again. -/
theorem updateXPos_twice_counterexample :
    ({ (ImageLayerNode.create 1 100 50 false).updateXPos 50 with
        dirtyMaterial := false }).dirtyMaterial = false ∧
    (({ (ImageLayerNode.create 1 100 50 false).updateXPos 50 with
        dirtyMaterial := false }).updateXPos 50).dirtyMaterial = true :=
  ⟨rfl, rfl⟩

/-- C6 (amended): calling `updateXPos` twice with the same pixel value, the
material-dirty flag being cleared in between, leaves the material state (and so the
normalized xPos) as it was after the first call, and marks the material dirty again:
`updateXPos` marks it on every call. -/
theorem updateXPos_twice (n : ImageLayerNode) (p : ℚ) :
    (({ n.updateXPos p with dirtyMaterial := false }).updateXPos p).state.xPos
        = (n.updateXPos p).state.xPos ∧
    (({ n.updateXPos p with dirtyMaterial := false }).updateXPos p).state
        = (n.updateXPos p).state ∧
    (({ n.updateXPos p with dirtyMaterial := false }).updateXPos p).dirtyMaterial = true :=
  ⟨rfl, rfl, rfl⟩

/-- C7 (as stated, refuted): on a node of natural width and height 0 the methods report
nothing and store a value that is not 0: minus infinity for the pixel offset 5, NaN
for the pixel offset 0 (as in the constructor). -/
theorem zero_dimension_guard_counterexample :
    (ImageLayerNode.create 1 0 0 false).m_width = 0 ∧
    ((ImageLayerNode.create 1 0 0 false).updateXPos 5).state.xPos = QReal.negInf ∧
    ((ImageLayerNode.create 1 0 0 false).updateYPos 5).state.yPos = QReal.negInf ∧
    (ImageLayerNode.create 1 0 0 false).state.xPos = QReal.nan ∧
    QReal.negInf ≠ QReal.fin 0 ∧ QReal.nan ≠ QReal.fin 0 := by
  refine ⟨rfl, ?_, ?_, ?_, by simp, by simp⟩ <;>
    simp [ImageLayerNode.create, ImageLayerNode.updateXPos, ImageLayerNode.updateYPos,
      ImageLayerNode.updateMirrored, QReal.div, QReal.neg]

/-- C7 (amended): `updateXPos` and `updateYPos` have no guard and no failure path. When
the natural dimension is not zero they store `-(p / dimension)`; when it is zero the
division is still performed and the stored value is not a finite number. -/
theorem update_pos_division (n : ImageLayerNode) (p : ℚ) :
    (n.m_width ≠ 0 → (n.updateXPos p).state.xPos = QReal.fin (-(p / (n.m_width : ℚ)))) ∧
    (n.m_height ≠ 0 → (n.updateYPos p).state.yPos = QReal.fin (-(p / (n.m_height : ℚ)))) ∧
    (n.m_width = 0 → ∀ q, (n.updateXPos p).state.xPos ≠ QReal.fin q) ∧
    (n.m_height = 0 → ∀ q, (n.updateYPos p).state.yPos ≠ QReal.fin q) := by
  refine ⟨?_, ?_, ?_, ?_⟩
  · intro h
    have h' : (n.m_width : ℚ) ≠ 0 := by exact_mod_cast h
    simp [ImageLayerNode.updateXPos, QReal.div_of_ne_zero _ _ h', QReal.neg]
  · intro h
    have h' : (n.m_height : ℚ) ≠ 0 := by exact_mod_cast h
    simp [ImageLayerNode.updateYPos, QReal.div_of_ne_zero _ _ h', QReal.neg]
  · intro h q
    simp only [ImageLayerNode.updateXPos, h, Nat.cast_zero]
    exact QReal.div_zero_not_fin p q
  · intro h q
    simp only [ImageLayerNode.updateYPos, h, Nat.cast_zero]
    exact QReal.div_zero_not_fin p q

/-- Witness for C7 (amended): width 100, pixel offset -50 gives the normalized 1/2. -/
theorem update_pos_division_witness :
    ((ImageLayerNode.create 1 100 50 false).updateXPos (-50)).state.xPos
      = QReal.fin (-((-50 : ℚ) / (((ImageLayerNode.create 1 100 50 false).m_width : ℕ) : ℚ))) :=
  (update_pos_division (ImageLayerNode.create 1 100 50 false) (-50)).1 (by decide)

/-- C8: the sampling coordinate of the fragment shader is the TileSampler of the
specification for all `u`, `v`, `dx`, `dy` and both values of the mirrored flag, and
the shader's test `int(mod(newX, 2.)) < 1` is the test `floor newX mod 2 = 0`. -/
theorem fragmentShader_eq_tileSamplerSpec (b : Bool) (u v dx dy : ℚ) :
    fragmentShader (mirroredUniform b) dx dy (u, v) = tileSamplerSpec b u v dx dy ∧
    (toInt (glslMod (u + dx) 2) < 1 ↔ ⌊u + dx⌋ % 2 = 0) ∧
    (toInt (glslMod (v + dy) 2) < 1 ↔ ⌊v + dy⌋ % 2 = 0) := by
  refine ⟨?_, coord_lt_one_iff _, coord_lt_one_iff _⟩
  cases b
  · rw [fragmentShader_plain _ _ _ _ _ (by norm_num [mirroredUniform])]
    simp [tileSamplerSpec]
  · rw [fragmentShader_mirrored _ _ _ _ _ (by norm_num [mirroredUniform])]
    simp [tileSamplerSpec]

/-- C9 (as stated, refuted): in mirrored mode, for `u = 0.2` and `dx = 0` the shader
samples at `0.8`, not at `0.2`; for `u = 0.2` and `dx = 1` it samples at `1.2`, not at
`-0.2`. -/
theorem mirror_example_counterexample :
    (fragmentShader (mirroredUniform true) 0 0 (1 / 5, 0)).1 = 4 / 5 ∧
    (4 / 5 : ℚ) ≠ 1 / 5 ∧
    (fragmentShader (mirroredUniform true) 1 0 (1 / 5, 0)).1 = 6 / 5 ∧
    (6 / 5 : ℚ) ≠ -(1 / 5) := by
  have f0 : ⌊(1 / 5 : ℚ) + 0⌋ = 0 := by rw [Int.floor_eq_iff]; norm_num
  have f1 : ⌊(1 / 5 : ℚ) + 1⌋ = 1 := by rw [Int.floor_eq_iff]; norm_num
  refine ⟨?_, by norm_num, ?_, by norm_num⟩
  · rw [fragmentShader_mirrored _ _ _ _ _ (by norm_num [mirroredUniform]), f0]
    norm_num
  · rw [fragmentShader_mirrored _ _ _ _ _ (by norm_num [mirroredUniform]), f1]
    norm_num

/-- C9 (amended): in mirrored mode the fragment shader reflects even tiles and leaves
odd tiles unreflected: for `u = 0.2`, `dx = 0` (tile index 0, even) the sampled x
coordinate is `1 - 0.2 - 0 = 0.8`, and for `u = 0.2`, `dx = 1` (tile index 1, odd) it is
`0.2 + 1 = 1.2`, for every `v`, `dy`. -/
theorem mirror_example (v dy : ℚ) :
    (fragmentShader (mirroredUniform true) 0 dy (1 / 5, v)).1 = 4 / 5 ∧
    (fragmentShader (mirroredUniform true) 1 dy (1 / 5, v)).1 = 6 / 5 ∧
    ⌊(1 / 5 : ℚ) + 0⌋ % 2 = 0 ∧ ⌊(1 / 5 : ℚ) + 1⌋ % 2 = 1 := by
  have f0 : ⌊(1 / 5 : ℚ) + 0⌋ = 0 := by rw [Int.floor_eq_iff]; norm_num
  have f1 : ⌊(1 / 5 : ℚ) + 1⌋ = 1 := by rw [Int.floor_eq_iff]; norm_num
  refine ⟨?_, ?_, by rw [f0]; rfl, by rw [f1]; rfl⟩
  · rw [fragmentShader_mirrored _ _ _ _ _ (by norm_num [mirroredUniform]), f0]
    norm_num
  · rw [fragmentShader_mirrored _ _ _ _ _ (by norm_num [mirroredUniform]), f1]
    norm_num

end Bacon2D

